import Mathlib

/-!
# Verification of the MaidSafe UDT transport (acceptor + connection)

Shallow embedding of `src/maidsafe-dht/transport/udt_acceptor.cc` (which
contains both `UdtAcceptor` and `UdtConnection`).  Byte values are `Nat`
(each in `0..255` where produced by the code), the 4-byte `DataSize`
(`static_assert(sizeof(DataSize) == 4)`) is modelled as arithmetic
modulo `2 ^ 32`, posix times are `Int` milliseconds extended with
`pos_infin`, and the observable effects of a handler (async socket
operations, transport callbacks, timer manipulation) are recorded as an
action trace alongside the successor state.  The asio strand serialises
all per-connection callbacks, so `strand_.dispatch`/`post` chains are
modelled as sequential composition.
-/

namespace Udt

/-- A remote UDP endpoint (address, port). -/
abbrev Endpoint := Nat × Nat

/-- Modelled from the spec: the handshake packet (decoded by the Packet
Codec, whose source `udt_handshake_packet.cc` is not in the repository
snapshot) carries the peer's advertised logical socket id and is treated
as opaque beyond decode success/failure plus the extracted id. -/
structure UdtHandshakePacket where
  socket_id : Nat
deriving DecidableEq

/-- Model of `UdtAcceptor::PendingRequest`: remote socket id and remote endpoint of
an unmatched handshake, queued in `pending_requests_`. -/
structure PendingRequest where
  remote_id : Nat
  remote_endpoint : Endpoint
deriving DecidableEq

/-- Record of one completed accept: the supplied socket (identified by an
opaque key), the remote id/endpoint bound onto it, and the fresh id the
multiplexer's dispatcher assigned when the socket was registered
(`multiplexer_.dispatcher_.AddSocket`). -/
structure AcceptMatch where
  socket_key : Nat
  remote_id : Nat
  remote_endpoint : Endpoint
  assigned_id : Nat
deriving DecidableEq

/-- State of one `UdtAcceptor` together with the slice of the multiplexer
it touches.  `next_socket_id` models the dispatcher's fresh-id counter
(modelled from the spec: `RegisterSocket` "assigns a fresh id");
`matched` accumulates completed accepts in completion order;
`dispatcher_has_acceptor` models whether the dispatcher's single acceptor
slot still points at this acceptor (set by the constructor's
`SetAcceptor(this)`); `assert_ok` is false once the
`assert(waiting_accept_socket_ == 0)` precondition has been violated. -/
structure AccState where
  pending_requests : List PendingRequest
  waiting_accept_socket : Option Nat
  next_socket_id : Nat
  matched : List AcceptMatch
  dispatcher_has_acceptor : Bool
  assert_ok : Bool
deriving DecidableEq

/-- Model of `UdtAcceptor::StartAccept` (udt_acceptor.cc lines 72-84).  The
function asserts that no accept is outstanding; with a non-empty backlog
it binds the front pending request's remote id/endpoint to the supplied
socket, registers the socket with the dispatcher and pops the request;
otherwise the socket is stored as the waiting accept slot. -/
def StartAccept (s : AccState) (socket_key : Nat) : AccState :=
  if s.waiting_accept_socket.isSome then
    { s with assert_ok := false }
  else
    match s.pending_requests with
    | req :: rest =>
        { s with
            pending_requests := rest,
            matched := s.matched ++
              [⟨socket_key, req.remote_id, req.remote_endpoint, s.next_socket_id⟩],
            next_socket_id := s.next_socket_id + 1 }
    | [] => { s with waiting_accept_socket := some socket_key }

/-- Model of `UdtAcceptor::HandleReceiveFrom` (udt_acceptor.cc lines 86-107),
parameterised by the result of `UdtHandshakePacket::Decode` on the
datagram.  On decode failure the datagram is ignored (DLOG only).  On
success, a waiting socket is bound and registered, else the request is
queued at the back of the backlog. -/
def HandleReceiveFrom (s : AccState) (decoded : Option UdtHandshakePacket)
    (endpoint : Endpoint) : AccState :=
  match decoded with
  | none => s
  | some packet =>
    match s.waiting_accept_socket with
    | some socket_key =>
        { s with
            waiting_accept_socket := none,
            matched := s.matched ++
              [⟨socket_key, packet.socket_id, endpoint, s.next_socket_id⟩],
            next_socket_id := s.next_socket_id + 1 }
    | none =>
        { s with pending_requests :=
            s.pending_requests ++ [⟨packet.socket_id, endpoint⟩] }

/-- Model of `UdtAcceptor::HandleReceiveFrom` on a raw datagram, with the Packet
Codec's `Decode` passed as the external collaborator it is. -/
def HandleReceiveFromRaw (decode : List Nat → Option UdtHandshakePacket)
    (s : AccState) (data : List Nat) (endpoint : Endpoint) : AccState :=
  HandleReceiveFrom s (decode data) endpoint

/-- One externally triggered acceptor event: a valid handshake arrival
(decoded id plus source endpoint) or a `StartAccept` call. -/
inductive AccEvent
  | arrival (remote_id : Nat) (endpoint : Endpoint)
  | accept (socket_key : Nat)
deriving DecidableEq

/-- Execute one event.  After an assertion failure the reference build has
aborted, so further events leave the state unchanged. -/
def accStep (s : AccState) : AccEvent → AccState
  | .arrival rid ep =>
      if s.assert_ok then HandleReceiveFrom s (some ⟨rid⟩) ep else s
  | .accept k =>
      if s.assert_ok then StartAccept s k else s

/-- Run a sequence of acceptor events. -/
def accRun (s : AccState) : List AccEvent → AccState
  | [] => s
  | ev :: rest => accRun (accStep s ev) rest

/-- The valid handshake arrivals of an event sequence, in arrival order. -/
def arrivalsOf : List AccEvent → List (Nat × Endpoint)
  | [] => []
  | .arrival rid ep :: rest => (rid, ep) :: arrivalsOf rest
  | .accept _ :: rest => arrivalsOf rest

/-- The `StartAccept` calls of an event sequence, in call order. -/
def acceptsOf : List AccEvent → List Nat
  | [] => []
  | .arrival _ _ :: rest => acceptsOf rest
  | .accept k :: rest => k :: acceptsOf rest

/-- The accept records produced when the i-th accept call is matched with
the i-th arrival, with dispatcher ids assigned sequentially from `d`. -/
def matchList (d : Nat) : List (Nat × (Nat × Endpoint)) → List AcceptMatch
  | [] => []
  | x :: rest => ⟨x.1, x.2.1, x.2.2, d⟩ :: matchList (d + 1) rest

/-- View of a pending request as an (id, endpoint) pair. -/
def toPair (r : PendingRequest) : Nat × Endpoint :=
  (r.remote_id, r.remote_endpoint)

/-- Build a pending request from an (id, endpoint) pair. -/
def mkReq (a : Nat × Endpoint) : PendingRequest :=
  ⟨a.1, a.2⟩

/-- A freshly constructed acceptor (udt_acceptor.cc lines 48-54): empty
backlog, no waiting accept, registered as the dispatcher's acceptor; the
dispatcher's fresh-id counter starts at an arbitrary `d`. -/
def accInit (d : Nat) : AccState :=
  ⟨[], none, d, [], true, true⟩

/-- A sample interleaving for concrete witnesses: two handshake arrivals,
one accept, one further arrival. -/
def sampleEvents : List AccEvent :=
  [.arrival 5 (1, 2), .arrival 6 (3, 4), .accept 9, .arrival 7 (5, 6)]

/-! ## Connection (udt_connection.cc part of the file) -/

/-- The `TransportCondition` values used by the connection. -/
inductive TransportCondition
  | kMessageSizeTooLarge
  | kSendTimeout
  | kSendFailure
  | kReceiveTimeout
  | kReceiveFailure
deriving DecidableEq

/-- A posix time: finite milliseconds or `pos_infin`. -/
inductive PTime
  | fin (t : Int)
  | inf
deriving DecidableEq

/-- Model of `std::min` on posix times (`pos_infin` is greater than everything). -/
def PTime.minT : PTime → PTime → PTime
  | .fin a, .fin b => .fin (min a b)
  | .fin a, .inf => .fin a
  | .inf, b => b

/-- Model of `operator<=` on posix times. -/
def PTime.leT : PTime → PTime → Bool
  | .fin a, .fin b => a ≤ b
  | .fin _, .inf => true
  | .inf, .fin _ => false
  | .inf, .inf => true

/-- The transport configuration constants (declared in headers outside
this snapshot; the spec lists them as tunables, so they are model
parameters).  Timeouts are in milliseconds. -/
structure Params where
  kMaxTransportMessageSize : Nat
  kMaxTransportChunkSize : Nat
  kDefaultInitialTimeout : Int
  kStallTimeout : Int
  kMinTimeout : Int
  kTimeoutFactor : Int
  kImmediateTimeout : Int
deriving DecidableEq

/-- Observable effects of one connection callback. -/
inductive ConnAction
  | onError (e : TransportCondition)
  | onMessageReceived (msg : List Nat)
  | asyncConnect
  | asyncRead (transfer_at_least : Nat)
  | asyncWrite (bytes : List Nat)
  | closeSocket
  | cancelTimer
  | removeConnection
  | timerWait
  | postDispatch
deriving DecidableEq

/-- State of one `UdtConnection`: the underlying socket's open flag, the
result of `transport_.lock()` (whether the owning transport is still
alive), and the member fields `buffer_`, `data_size_`, `data_received_`,
`timeout_for_response_`, `response_deadline_` and the timer's expiry. -/
structure ConnState where
  socket_open : Bool
  transport_alive : Bool
  buffer : List Nat
  data_size : Nat
  data_received : Nat
  timeout_for_response : Int
  response_deadline : PTime
  timer_expires : PTime
deriving DecidableEq

/-- Model of `std::vector::resize`: keep a prefix, zero-fill growth. -/
def listResize (l : List Nat) (n : Nat) : List Nat :=
  l.take n ++ List.replicate (n - l.length) 0

/-- Model of `UdtConnection::DoClose` (lines 191-196): close the socket, cancel
the timer, and deregister from the transport if it is still alive. -/
def DoClose (s : ConnState) : ConnState × List ConnAction :=
  ({ s with socket_open := false },
   [.closeSocket, .cancelTimer] ++
     if s.transport_alive then [ConnAction.removeConnection] else [])

/-- Model of `UdtConnection::CloseOnError` (lines 405-409): report the condition on
the transport's error callback (if the transport still exists), then
close. -/
def CloseOnError (s : ConnState) (e : TransportCondition) :
    ConnState × List ConnAction :=
  ((DoClose s).1,
   (if s.transport_alive then [ConnAction.onError e] else []) ++ (DoClose s).2)

/-- Model of `UdtConnection::CheckTimeout` (lines 221-234): nothing if the socket
is closed; close the socket if the deadline has passed; otherwise go back
to sleep on the timer. -/
def CheckTimeout (now : Int) (s : ConnState) : ConnState × List ConnAction :=
  if ¬ s.socket_open then (s, [])
  else if PTime.leT s.timer_expires (.fin now) then
    ({ s with socket_open := false }, [.closeSocket])
  else (s, [.timerWait])

/-- Model of `UdtConnection::StartReadSize` (lines 236-247): resize the buffer to 4
bytes, issue an `AsyncRead` for the 4-byte length, set the response
deadline to `now + timeout_for_response_` and arm the timer with the
minimum of the response deadline and `now + kStallTimeout`. -/
def StartReadSize (p : Params) (now : Int) (s : ConnState) :
    ConnState × List ConnAction :=
  ({ s with
      buffer := listResize s.buffer 4,
      response_deadline := .fin (now + s.timeout_for_response),
      timer_expires :=
        PTime.minT (.fin (now + s.timeout_for_response))
          (.fin (now + p.kStallTimeout)) },
   [.asyncRead 4])

/-- The big-endian 32-bit decode in `UdtConnection::HandleReadSize`
(lines 259-260): `(((b0 << 8 | b1) << 8 | b2) << 8) | b3`. -/
def decodeSizeFrom (buf : List Nat) : Nat :=
  ((((((buf.getD 0 0) <<< 8) ||| buf.getD 1 0) <<< 8) |||
     buf.getD 2 0) <<< 8) ||| buf.getD 3 0

/-- Model of `UdtConnection::StartReadData` (lines 268-284): grow the buffer by at
most `kMaxTransportChunkSize` towards `data_size_`, issue an `AsyncRead`
for at least one byte, and arm the timer with the minimum of the response
deadline and `now + kStallTimeout`. -/
def StartReadData (p : Params) (now : Int) (s : ConnState) :
    ConnState × List ConnAction :=
  ({ s with
      buffer := listResize s.buffer
        (s.data_received +
          min p.kMaxTransportChunkSize (s.data_size - s.data_received)),
      timer_expires :=
        PTime.minT s.response_deadline (.fin (now + p.kStallTimeout)) },
   [.asyncRead 1])

/-- Model of `UdtConnection::HandleReadSize` (lines 249-266): a closed socket means
the timeout fired (`kReceiveTimeout`); an error code means
`kReceiveFailure`; otherwise decode the big-endian length into
`data_size_`, reset `data_received_` and start reading data. -/
def HandleReadSize (p : Params) (now : Int) (s : ConnState) (ec : Bool) :
    ConnState × List ConnAction :=
  if ¬ s.socket_open then CloseOnError s .kReceiveTimeout
  else if ec then CloseOnError s .kReceiveFailure
  else
    StartReadData p now
      { s with data_size := decodeSizeFrom s.buffer, data_received := 0 }

/-- Model of `UdtConnection::HandleReadData` (lines 286-309): timeout/failure
classification as for `HandleReadSize`; on progress, if the message is
complete, disable the timer (`pos_infin`) and post `DispatchMessage`
outside the strand, else continue reading. -/
def HandleReadData (p : Params) (now : Int) (s : ConnState) (ec : Bool)
    (length : Nat) : ConnState × List ConnAction :=
  if ¬ s.socket_open then CloseOnError s .kReceiveTimeout
  else if ec then CloseOnError s .kReceiveFailure
  else
    if s.data_received + length = s.data_size then
      ({ s with data_received := s.data_received + length,
                timer_expires := .inf },
       [.postDispatch])
    else
      StartReadData p now { s with data_received := s.data_received + length }

/-- The four big-endian bytes pushed by `UdtConnection::EncodeData`
(lines 347-348): `static_cast<char>(msg_size >> (8 * (3 - i)))`. -/
def encodeSizeBytes (msg_size : Nat) : List Nat :=
  [msg_size >>> 24 % 256, msg_size >>> 16 % 256,
   msg_size >>> 8 % 256, msg_size % 256]

/-- Model of `UdtConnection::EncodeData` (lines 334-350): narrow the payload size
to the 4-byte `DataSize`; if it exceeds `kMaxTransportMessageSize`,
report `kMessageSizeTooLarge` (when the transport is alive) and return
with the buffer untouched; otherwise replace the buffer with the 4-byte
big-endian length followed by the payload. -/
def EncodeData (p : Params) (s : ConnState) (data : List Nat) :
    ConnState × List ConnAction :=
  if data.length % 2 ^ 32 > p.kMaxTransportMessageSize then
    (s, if s.transport_alive then [ConnAction.onError .kMessageSizeTooLarge]
        else [])
  else
    ({ s with buffer := encodeSizeBytes (data.length % 2 ^ 32) ++ data }, [])

/-- Model of `UdtConnection::StartConnect` (lines 352-357): issue `AsyncConnect`
and arm the timer `kDefaultInitialTimeout` from now. -/
def StartConnect (p : Params) (now : Int) (s : ConnState) :
    ConnState × List ConnAction :=
  ({ s with timer_expires := .fin (now + p.kDefaultInitialTimeout) },
   [.asyncConnect])

/-- Model of `UdtConnection::StartWrite` (lines 372-385): issue `AsyncWrite` of the
framed buffer and arm the timer `max(buffer_.size() * kTimeoutFactor,
kMinTimeout)` milliseconds from now. -/
def StartWrite (p : Params) (now : Int) (s : ConnState) :
    ConnState × List ConnAction :=
  ({ s with timer_expires :=
      PTime.fin (now + max ((s.buffer.length : Int) * p.kTimeoutFactor)
        p.kMinTimeout) },
   [.asyncWrite s.buffer])

/-- Model of `UdtConnection::HandleConnect` (lines 359-370): closed socket means
the timeout fired (`kSendTimeout`); an error code means `kSendFailure`;
otherwise start writing. -/
def HandleConnect (p : Params) (now : Int) (s : ConnState) (ec : Bool) :
    ConnState × List ConnAction :=
  if ¬ s.socket_open then CloseOnError s .kSendTimeout
  else if ec then CloseOnError s .kSendFailure
  else StartWrite p now s

/-- Model of `UdtConnection::HandleWrite` (lines 387-403): closed socket means the
timeout fired (`kSendTimeout`); an error code means `kSendFailure`; on
success, start reading the response length unless the response-timeout
policy is the `kImmediateTimeout` sentinel, in which case close now. -/
def HandleWrite (p : Params) (now : Int) (s : ConnState) (ec : Bool) :
    ConnState × List ConnAction :=
  if ¬ s.socket_open then CloseOnError s .kSendTimeout
  else if ec then CloseOnError s .kSendFailure
  else if s.timeout_for_response ≠ p.kImmediateTimeout then
    StartReadSize p now s
  else
    DoClose s

/-- Model of `UdtConnection::DispatchMessage` (lines 311-332): only if the weak
back-reference to the owning transport still locks, hand the buffered
message to `on_message_received_`; the handler's out-parameters are
modelled as the function's result (response string, response timeout).
An empty response closes the connection; otherwise the response is
encoded, the response-timeout policy updated and a write started. -/
def DispatchMessage (p : Params) (now : Int)
    (handler : List Nat → List Nat × Int) (s : ConnState) :
    ConnState × List ConnAction :=
  if s.transport_alive then
    if (handler s.buffer).1 = [] then
      ((DoClose s).1, .onMessageReceived s.buffer :: (DoClose s).2)
    else
      ((StartWrite p now
          { (EncodeData p s (handler s.buffer).1).1 with
              timeout_for_response := (handler s.buffer).2 }).1,
       .onMessageReceived s.buffer ::
         ((EncodeData p s (handler s.buffer).1).2 ++
           (StartWrite p now
             { (EncodeData p s (handler s.buffer).1).1 with
                 timeout_for_response := (handler s.buffer).2 }).2))
  else (s, [])

/-- Model of `UdtConnection::StartSending` plus the dispatched `DoStartSending`
(lines 208-219): encode the payload, set the response-timeout policy,
then start the connect and the timeout watchdog.  Note the source does
not stop when `EncodeData` takes its error path. -/
def StartSending (p : Params) (now : Int) (s : ConnState) (data : List Nat)
    (timeout : Int) : ConnState × List ConnAction :=
  ((CheckTimeout now
      (StartConnect p now
        { (EncodeData p s data).1 with timeout_for_response := timeout }).1).1,
   (EncodeData p s data).2 ++
     (StartConnect p now
       { (EncodeData p s data).1 with timeout_for_response := timeout }).2 ++
     (CheckTimeout now
       (StartConnect p now
         { (EncodeData p s data).1 with
             timeout_for_response := timeout }).1).2)

/-- Sample tunables for concrete witnesses: max message size 2, chunk 10,
initial timeout 100, stall 1, min write timeout 1, factor 1,
immediate-timeout sentinel 0. -/
def sampleParams : Params :=
  ⟨2, 10, 100, 1, 1, 1, 0⟩

/-- A live connection with a one-byte received message in its buffer. -/
def sampleConn : ConnState :=
  ⟨true, true, [7], 1, 1, 9, .fin 0, .inf⟩

/-- The result `r` of a completion handler reports condition `e` as its
first action and leaves the underlying socket closed. -/
def reportsAndCloses (r : ConnState × List ConnAction)
    (e : TransportCondition) : Prop :=
  r.2.head? = some (.onError e) ∧ r.1.socket_open = false

/-! ## Theorems -/

theorem accStep_not_ok {s : AccState} (h : s.assert_ok = false)
    (ev : AccEvent) : accStep s ev = s := by
  cases ev <;> simp [accStep, h]

theorem accRun_not_ok {s : AccState} (h : s.assert_ok = false) :
    ∀ evs : List AccEvent, accRun s evs = s := by
  intro evs
  induction evs with
  | nil => rfl
  | cons ev rest ih => rw [accRun, accStep_not_ok h]; exact ih

theorem map_mkReq_toPair (l : List PendingRequest) :
    (l.map toPair).map mkReq = l := by
  induction l with
  | nil => rfl
  | cons r rest ih => simp [toPair, mkReq, ih]

theorem map_comp_mkReq_toPair (l : List PendingRequest) :
    List.map (mkReq ∘ toPair) l = l := by
  rw [← List.map_map]
  exact map_mkReq_toPair l

/-- Claim C4: a second `StartAccept` while one accept is already waiting
(and the backlog is empty) trips the
`assert(waiting_accept_socket_ == 0)` precondition; the second socket is
not queued as a second waiter and no state changes. -/
theorem second_start_accept_asserts (s : AccState) (k w : Nat)
    (hw : s.waiting_accept_socket = some w)
    (hb : s.pending_requests = []) :
    (StartAccept s k).assert_ok = false ∧
    (StartAccept s k).waiting_accept_socket = some w ∧
    (StartAccept s k).pending_requests = [] ∧
    (StartAccept s k).matched = s.matched := by
  simp [StartAccept, hw, hb]

theorem second_start_accept_asserts_witness :
    (StartAccept ⟨[], some 5, 0, [], true, true⟩ 9).assert_ok = false ∧
    (StartAccept ⟨[], some 5, 0, [], true, true⟩ 9).waiting_accept_socket
      = some 5 ∧
    (StartAccept ⟨[], some 5, 0, [], true, true⟩ 9).pending_requests = [] ∧
    (StartAccept ⟨[], some 5, 0, [], true, true⟩ 9).matched = [] :=
  second_start_accept_asserts ⟨[], some 5, 0, [], true, true⟩ 9 5 rfl rfl

/-- Claim C9: a datagram whose payload fails to decode as a handshake
packet is discarded with a log: the backlog, the waiting-accept slot and
the acceptor's registration with the multiplexer are all unchanged, and
no error is propagated. -/
theorem malformed_datagram_ignored
    (decode : List Nat → Option UdtHandshakePacket) (s : AccState)
    (data : List Nat) (ep : Endpoint) (hdec : decode data = none) :
    HandleReceiveFromRaw decode s data ep = s ∧
    (HandleReceiveFromRaw decode s data ep).pending_requests =
      s.pending_requests ∧
    (HandleReceiveFromRaw decode s data ep).waiting_accept_socket =
      s.waiting_accept_socket ∧
    (HandleReceiveFromRaw decode s data ep).dispatcher_has_acceptor =
      s.dispatcher_has_acceptor := by
  simp [HandleReceiveFromRaw, hdec, HandleReceiveFrom]

theorem malformed_datagram_ignored_witness :
    HandleReceiveFromRaw (fun _ => none) (accInit 0) [1, 2, 3] (4, 5)
      = accInit 0 :=
  (malformed_datagram_ignored (fun _ => none) (accInit 0) [1, 2, 3] (4, 5)
    rfl).1

/-- Claim C10: if the owning transport no longer exists (the weak
back-reference does not lock), `DispatchMessage` performs no action at
all: no callback, no framing, no write, no close; the state (socket,
buffer, timer deadline) is returned unchanged with an empty action
trace. -/
theorem dispatch_without_transport (p : Params) (now : Int)
    (handler : List Nat → List Nat × Int) (s : ConnState)
    (hdead : s.transport_alive = false) :
    DispatchMessage p now handler s = (s, []) := by
  simp [DispatchMessage, hdead]

theorem dispatch_without_transport_witness :
    DispatchMessage sampleParams 0 (fun _ => ([1], 5))
        { sampleConn with transport_alive := false }
      = ({ sampleConn with transport_alive := false }, []) :=
  dispatch_without_transport sampleParams 0 (fun _ => ([1], 5))
    { sampleConn with transport_alive := false } rfl

/-- Claim C6: every completion handler (read-size, read-data, connect,
write) classifies a closed socket as the phase's timeout condition
(`kReceiveTimeout` for the read phases, `kSendTimeout` for connect and
write), classifies an error code on an open socket as
`kReceiveFailure`/`kSendFailure`, and in either case closes the
connection. -/
theorem handler_error_classification (p : Params) (now : Int)
    (s : ConnState) (ec : Bool) (n : Nat)
    (halive : s.transport_alive = true) :
    (s.socket_open = false →
      reportsAndCloses (HandleReadSize p now s ec) .kReceiveTimeout ∧
      reportsAndCloses (HandleReadData p now s ec n) .kReceiveTimeout ∧
      reportsAndCloses (HandleConnect p now s ec) .kSendTimeout ∧
      reportsAndCloses (HandleWrite p now s ec) .kSendTimeout) ∧
    (s.socket_open = true → ec = true →
      reportsAndCloses (HandleReadSize p now s ec) .kReceiveFailure ∧
      reportsAndCloses (HandleReadData p now s ec n) .kReceiveFailure ∧
      reportsAndCloses (HandleConnect p now s ec) .kSendFailure ∧
      reportsAndCloses (HandleWrite p now s ec) .kSendFailure) := by
  constructor
  · intro hclosed
    simp [HandleReadSize, HandleReadData, HandleConnect, HandleWrite,
      CloseOnError, DoClose, reportsAndCloses, hclosed, halive]
  · intro hopen hec
    subst hec
    simp [HandleReadSize, HandleReadData, HandleConnect, HandleWrite,
      CloseOnError, DoClose, reportsAndCloses, hopen, halive]

theorem handler_error_classification_witness :
    reportsAndCloses
      (HandleReadSize sampleParams 0
        { sampleConn with socket_open := false } false) .kReceiveTimeout ∧
    reportsAndCloses
      (HandleWrite sampleParams 0 sampleConn true) .kSendFailure :=
  ⟨((handler_error_classification sampleParams 0
      { sampleConn with socket_open := false } false 0 rfl).1 rfl).1,
   ((handler_error_classification sampleParams 0 sampleConn true 0 rfl).2
      rfl rfl).2.2.2⟩

/-- Claim C7: after a successful write, if the response-timeout policy is
the `kImmediateTimeout` sentinel the connection closes at once and no
read is started; otherwise it immediately starts reading the 4-byte
response length. -/
theorem write_complete_policy (p : Params) (now : Int) (s : ConnState)
    (hopen : s.socket_open = true) :
    (s.timeout_for_response = p.kImmediateTimeout →
      HandleWrite p now s false = DoClose s ∧
      (HandleWrite p now s false).1.socket_open = false ∧
      ∀ k, ConnAction.asyncRead k ∉ (HandleWrite p now s false).2) ∧
    (s.timeout_for_response ≠ p.kImmediateTimeout →
      HandleWrite p now s false = StartReadSize p now s ∧
      (HandleWrite p now s false).2 = [.asyncRead 4]) := by
  constructor
  · intro him
    refine ⟨by simp [HandleWrite, hopen, him], ?_, ?_⟩
    · simp [HandleWrite, hopen, him, DoClose]
    · intro k
      cases htr : s.transport_alive <;>
        simp [HandleWrite, hopen, him, DoClose, htr]
  · intro him
    constructor
    · simp [HandleWrite, hopen, him]
    · simp [HandleWrite, hopen, him, StartReadSize]

theorem write_complete_policy_witness :
    HandleWrite sampleParams 0 { sampleConn with timeout_for_response := 0 }
        false
      = DoClose { sampleConn with timeout_for_response := 0 } ∧
    HandleWrite sampleParams 0 sampleConn false
      = StartReadSize sampleParams 0 sampleConn :=
  ⟨((write_complete_policy sampleParams 0
      { sampleConn with timeout_for_response := 0 } rfl).1 rfl).1,
   ((write_complete_policy sampleParams 0 sampleConn rfl).2
      (by decide)).1⟩

/-- Claim C2 (code bug): sending an oversized payload does report
`kMessageSizeTooLarge`, but the send is not aborted — `StartSending`
still dispatches `DoStartSending`, so a connect is initiated (and the
stale buffer will later be written).  Evaluated here at a 3-byte payload
with a maximum message size of 2: the action trace contains both the
error callback and the `AsyncConnect`. -/
theorem oversized_send_still_connects :
    ConnAction.onError .kMessageSizeTooLarge ∈
      (StartSending sampleParams 0 { sampleConn with buffer := [] }
        [3, 3, 3] 100).2 ∧
    ConnAction.asyncConnect ∈
      (StartSending sampleParams 0 { sampleConn with buffer := [] }
        [3, 3, 3] 100).2 ∧
    (StartSending sampleParams 0 { sampleConn with buffer := [] }
      [3, 3, 3] 100).1.buffer = [] := by
  decide

theorem EncodeData_success (p : Params) (s : ConnState) (data : List Nat)
    (h : data.length ≤ p.kMaxTransportMessageSize)
    (h2 : data.length < 2 ^ 32) :
    EncodeData p s data =
      ({ s with buffer := encodeSizeBytes data.length ++ data }, []) := by
  have hmod : data.length % 2 ^ 32 = data.length := Nat.mod_eq_of_lt h2
  unfold EncodeData
  rw [hmod, if_neg (by omega : ¬ data.length > p.kMaxTransportMessageSize)]

/-- Claim C5 (amended): when the transport is alive and the handler
leaves the response empty, the connection closes immediately after
dispatch and no write is issued; when the handler supplies a non-empty
response that does not exceed the maximum message size, the response is
framed into the buffer, the response-timeout policy updated, and a write
of the framed response started. -/
theorem dispatch_response_handling (p : Params) (now : Int)
    (handler : List Nat → List Nat × Int) (s : ConnState)
    (halive : s.transport_alive = true)
    (hmax : p.kMaxTransportMessageSize < 2 ^ 32) :
    ((handler s.buffer).1 = [] →
      (DispatchMessage p now handler s).1.socket_open = false ∧
      (DispatchMessage p now handler s).2 =
        [.onMessageReceived s.buffer, .closeSocket, .cancelTimer,
         .removeConnection] ∧
      ∀ bs, ConnAction.asyncWrite bs ∉ (DispatchMessage p now handler s).2) ∧
    ((handler s.buffer).1 ≠ [] →
      (handler s.buffer).1.length ≤ p.kMaxTransportMessageSize →
      (DispatchMessage p now handler s).1.buffer =
        encodeSizeBytes (handler s.buffer).1.length ++ (handler s.buffer).1 ∧
      (DispatchMessage p now handler s).1.timeout_for_response =
        (handler s.buffer).2 ∧
      (DispatchMessage p now handler s).2 =
        [.onMessageReceived s.buffer,
         .asyncWrite (encodeSizeBytes (handler s.buffer).1.length ++
           (handler s.buffer).1)]) := by
  constructor
  · intro hresp
    simp [DispatchMessage, halive, hresp, DoClose]
  · intro hresp hle
    have henc := EncodeData_success p s (handler s.buffer).1 hle (by omega)
    simp [DispatchMessage, halive, hresp, henc, StartWrite]

theorem dispatch_response_handling_witness :
    (DispatchMessage sampleParams 0 (fun _ => ([8], 5)) sampleConn).1.buffer
      = encodeSizeBytes 1 ++ [8] ∧
    (DispatchMessage sampleParams 0 (fun _ => ([8], 5))
      sampleConn).1.timeout_for_response = 5 :=
  ⟨(((dispatch_response_handling sampleParams 0 (fun _ => ([8], 5))
        sampleConn rfl (by decide)).2 (by decide) (by decide))).1,
   (((dispatch_response_handling sampleParams 0 (fun _ => ([8], 5))
        sampleConn rfl (by decide)).2 (by decide) (by decide))).2.1⟩

/-- Claim C5, counterexample to the claim as stated: a dispatch whose
handler supplies a non-empty response that exceeds the maximum message
size (here 4 bytes against a maximum of 2).  The response is not framed:
`EncodeData` takes its error path, the buffer keeps the received message
`[7]`, and the write that starts sends that stale buffer instead. -/
theorem dispatch_oversized_response_not_framed :
    ¬ ((DispatchMessage sampleParams 0 (fun _ => ([1, 1, 1, 1], 5))
          sampleConn).1.buffer
        = encodeSizeBytes 4 ++ [1, 1, 1, 1]) ∧
    (DispatchMessage sampleParams 0 (fun _ => ([1, 1, 1, 1], 5))
        sampleConn).2 =
      [.onMessageReceived [7], .onError .kMessageSizeTooLarge,
       .asyncWrite [7]] := by
  decide

/-- Claim C8 (amended): the read-size and read-data steps arm the timer
with the earlier of the response deadline and `now + kStallTimeout`
(read-size first setting the response deadline to
`now + timeout_for_response_`); the connect step arms it with
`now + kDefaultInitialTimeout` and the write step with the size-scaled
write timeout floored at `kMinTimeout`; completing a message disables the
timer (`pos_infin`) for the dispatch. -/
theorem timer_arming_policy (p : Params) (now : Int) (s : ConnState)
    (n : Nat) :
    (StartReadSize p now s).1.timer_expires =
      PTime.minT (.fin (now + s.timeout_for_response))
        (.fin (now + p.kStallTimeout)) ∧
    (StartReadSize p now s).1.response_deadline =
      .fin (now + s.timeout_for_response) ∧
    (StartReadData p now s).1.timer_expires =
      PTime.minT s.response_deadline (.fin (now + p.kStallTimeout)) ∧
    (StartConnect p now s).1.timer_expires =
      .fin (now + p.kDefaultInitialTimeout) ∧
    (StartWrite p now s).1.timer_expires =
      .fin (now + max ((s.buffer.length : Int) * p.kTimeoutFactor)
        p.kMinTimeout) ∧
    (s.socket_open = true → s.data_received + n = s.data_size →
      (HandleReadData p now s false n).1.timer_expires = .inf) := by
  refine ⟨rfl, rfl, rfl, rfl, rfl, ?_⟩
  intro hopen hn
  simp [HandleReadData, hopen, hn]

theorem timer_arming_policy_witness :
    (HandleReadData sampleParams 0 sampleConn false 0).1.timer_expires =
      PTime.inf :=
  (timer_arming_policy sampleParams 0 sampleConn 0).2.2.2.2.2 rfl rfl

/-- Claim C8, counterexample to the claim as stated: while waiting on the
connect step the timer is armed with `now + kDefaultInitialTimeout`
(here 100), not with the earlier of the response deadline (here 0) and
the stall deadline (here 1). -/
theorem timer_min_claim_false_at_connect :
    ¬ ((StartConnect sampleParams 0 sampleConn).1.timer_expires =
        PTime.minT sampleConn.response_deadline
          (.fin (0 + sampleParams.kStallTimeout))) := by
  decide

theorem lor_shift8 (a b : Nat) (hb : b < 256) :
    a <<< 8 ||| b = a * 256 + b := by
  rw [Nat.shiftLeft_eq]
  have h := Nat.mul_add_lt_is_or (i := 8) (b := b) (by simpa using hb) a
  calc a * 2 ^ 8 ||| b = 2 ^ 8 * a ||| b := by rw [Nat.mul_comm]
    _ = 2 ^ 8 * a + b := h.symm
    _ = a * 256 + b := by rw [Nat.mul_comm]

theorem decode_encode (n : Nat) (hn : n < 2 ^ 32) (rest : List Nat) :
    decodeSizeFrom (encodeSizeBytes n ++ rest) = n := by
  have h8 : ∀ m : Nat, m % 256 < 256 := fun m => Nat.mod_lt _ (by norm_num)
  have h0 : (encodeSizeBytes n ++ rest).getD 0 0 = n >>> 24 % 256 := rfl
  have h1 : (encodeSizeBytes n ++ rest).getD 1 0 = n >>> 16 % 256 := rfl
  have h2 : (encodeSizeBytes n ++ rest).getD 2 0 = n >>> 8 % 256 := rfl
  have h3 : (encodeSizeBytes n ++ rest).getD 3 0 = n % 256 := rfl
  rw [decodeSizeFrom, h0, h1, h2, h3,
    lor_shift8 _ _ (h8 _), lor_shift8 _ _ (h8 _), lor_shift8 _ _ (h8 _)]
  simp only [Nat.shiftRight_eq_div_pow]
  omega

/-- Claim C3: for a payload of size `S ≤ kMaxTransportMessageSize`,
`EncodeData` produces the 4-byte big-endian encoding of `S` followed by
the payload, and the big-endian decode performed by `HandleReadSize` on
the first four bytes recovers `N = S` (with the payload intact after the
header); a payload of size `kMaxTransportMessageSize + 1` is rejected
with the buffer untouched. -/
theorem framing_roundtrip (p : Params) (s : ConnState) (data : List Nat)
    (hmax : p.kMaxTransportMessageSize + 1 < 2 ^ 32) :
    (data.length ≤ p.kMaxTransportMessageSize →
      (EncodeData p s data).1.buffer =
        encodeSizeBytes data.length ++ data ∧
      decodeSizeFrom (EncodeData p s data).1.buffer = data.length ∧
      (EncodeData p s data).1.buffer.drop 4 = data) ∧
    (data.length = p.kMaxTransportMessageSize + 1 →
      (EncodeData p s data).1 = s ∧
      (EncodeData p s data).2 =
        if s.transport_alive
        then [ConnAction.onError .kMessageSizeTooLarge] else []) := by
  constructor
  · intro hle
    have henc := EncodeData_success p s data hle (by omega)
    refine ⟨by rw [henc], ?_, ?_⟩
    · rw [henc]
      exact decode_encode data.length (by omega) data
    · rw [henc]
      simp [encodeSizeBytes]
  · intro heq
    have hmod : data.length % 2 ^ 32 = data.length :=
      Nat.mod_eq_of_lt (by omega)
    have hcond : data.length % 2 ^ 32 > p.kMaxTransportMessageSize := by
      rw [hmod]; omega
    rw [EncodeData, if_pos hcond]
    exact ⟨rfl, rfl⟩

theorem framing_roundtrip_witness :
    decodeSizeFrom (EncodeData sampleParams sampleConn [1, 2]).1.buffer = 2 ∧
    (EncodeData sampleParams sampleConn [1, 2, 3]).1 = sampleConn :=
  ⟨((framing_roundtrip sampleParams sampleConn [1, 2]
      (by decide)).1 (by decide)).2.1,
   ((framing_roundtrip sampleParams sampleConn [1, 2, 3]
      (by decide)).2 (by decide)).1⟩

theorem accRun_char : ∀ (evs : List AccEvent) (s : AccState),
    s.pending_requests = [] ∨ s.waiting_accept_socket = none →
    (accRun s evs).assert_ok = true →
    (accRun s evs).matched = s.matched ++
        matchList s.next_socket_id
          ((s.waiting_accept_socket.toList ++ acceptsOf evs).zip
            (s.pending_requests.map toPair ++ arrivalsOf evs)) ∧
    (accRun s evs).pending_requests =
        ((s.pending_requests.map toPair ++ arrivalsOf evs).drop
          (s.waiting_accept_socket.toList ++ acceptsOf evs).length).map
          mkReq ∧
    (accRun s evs).waiting_accept_socket =
        ((s.waiting_accept_socket.toList ++ acceptsOf evs).drop
          (s.pending_requests.map toPair ++ arrivalsOf evs).length).head? ∧
    (s.waiting_accept_socket.toList ++ acceptsOf evs).length ≤
        (s.pending_requests.map toPair ++ arrivalsOf evs).length + 1 := by
  intro evs
  induction evs with
  | nil =>
    intro s hinv hfin
    rcases hinv with hp | hw
    · cases hwv : s.waiting_accept_socket with
      | none =>
        simp [accRun, hp, hwv, arrivalsOf, acceptsOf, matchList,
          map_mkReq_toPair, map_comp_mkReq_toPair]
      | some w =>
        simp [accRun, hp, hwv, arrivalsOf, acceptsOf, matchList]
    · simp [accRun, hw, arrivalsOf, acceptsOf, matchList, map_mkReq_toPair,
        map_comp_mkReq_toPair]
  | cons ev rest ih =>
    intro s hinv hfin
    have hok : s.assert_ok = true := by
      by_contra hok
      have hok2 : s.assert_ok = false := by
        revert hok; cases s.assert_ok <;> simp
      rw [accRun, accStep_not_ok hok2, accRun_not_ok hok2 rest] at hfin
      rw [hok2] at hfin
      cases hfin
    cases ev with
    | arrival rid ep =>
      cases hw : s.waiting_accept_socket with
      | some w =>
        have hp : s.pending_requests = [] := by
          rcases hinv with hp | hw2
          · exact hp
          · rw [hw2] at hw; cases hw
        have hstep : accStep s (AccEvent.arrival rid ep) =
            { s with waiting_accept_socket := none,
                     matched := s.matched ++
                       [⟨w, rid, ep, s.next_socket_id⟩],
                     next_socket_id := s.next_socket_id + 1 } := by
          simp [accStep, hok, HandleReceiveFrom, hw]
        rw [accRun, hstep] at hfin ⊢
        rw [hp] at hfin ⊢
        obtain ⟨i1, i2, i3, i4⟩ := ih _ (Or.inr rfl) hfin
        simp only [List.map_nil, List.nil_append, Option.toList_none,
          Option.toList_some] at i1 i2 i3 i4 ⊢
        simp only [arrivalsOf, acceptsOf, List.cons_append,
          List.nil_append, List.zip_cons_cons, matchList] at i1 i2 i3 i4 ⊢
        refine ⟨?_, ?_, ?_, ?_⟩
        · rw [i1]; simp [List.append_assoc, List.zip]
        · rw [i2]; simp
        · rw [i3]; simp
        · simp at i4 ⊢; omega
      | none =>
        have hstep : accStep s (AccEvent.arrival rid ep) =
            { s with pending_requests :=
                s.pending_requests ++ [⟨rid, ep⟩] } := by
          simp [accStep, hok, HandleReceiveFrom, hw]
        rw [accRun, hstep] at hfin ⊢
        obtain ⟨i1, i2, i3, i4⟩ :=
          ih { s with pending_requests := s.pending_requests ++ [⟨rid, ep⟩] }
            (Or.inr hw) hfin
        simp only [hw, Option.toList_none, List.nil_append, List.map_append,
          List.map_cons, List.map_nil, toPair, List.append_assoc,
          List.cons_append] at i1 i2 i3 i4 ⊢
        simp only [arrivalsOf, acceptsOf] at i1 i2 i3 i4 ⊢
        exact ⟨i1, i2, i3, i4⟩
    | accept k =>
      cases hw : s.waiting_accept_socket with
      | some w =>
        exfalso
        have hstep : accStep s (AccEvent.accept k) =
            { s with assert_ok := false } := by
          simp [accStep, hok, StartAccept, hw]
        rw [accRun, hstep,
          accRun_not_ok (s := { s with assert_ok := false }) rfl rest]
          at hfin
        cases hfin
      | none =>
        cases hp : s.pending_requests with
        | cons req ps =>
          have hstep : accStep s (AccEvent.accept k) =
              { s with pending_requests := ps,
                       matched := s.matched ++
                         [⟨k, req.remote_id, req.remote_endpoint,
                           s.next_socket_id⟩],
                       next_socket_id := s.next_socket_id + 1 } := by
            simp [accStep, hok, StartAccept, hw, hp]
          rw [accRun, hstep] at hfin ⊢
          obtain ⟨i1, i2, i3, i4⟩ :=
            ih { s with pending_requests := ps,
                        matched := s.matched ++
                          [⟨k, req.remote_id, req.remote_endpoint,
                            s.next_socket_id⟩],
                        next_socket_id := s.next_socket_id + 1 }
              (Or.inr hw) hfin
          simp only [hw, Option.toList_none, List.nil_append, List.map_cons,
            toPair, List.cons_append] at i1 i2 i3 i4 ⊢
          simp only [arrivalsOf, acceptsOf, List.zip_cons_cons,
            matchList] at i1 i2 i3 i4 ⊢
          refine ⟨?_, ?_, ?_, ?_⟩
          · rw [i1]; simp [List.append_assoc, List.zip]
          · rw [i2]; simp
          · rw [i3]; simp
          · simp at i4 ⊢; omega
        | nil =>
          have hstep : accStep s (AccEvent.accept k) =
              { s with waiting_accept_socket := some k } := by
            simp [accStep, hok, StartAccept, hw, hp]
          rw [accRun, hstep] at hfin ⊢
          obtain ⟨i1, i2, i3, i4⟩ :=
            ih { s with waiting_accept_socket := some k } (Or.inl hp) hfin
          simp only [hw, hp, Option.toList_none, Option.toList_some,
            List.nil_append, List.map_nil, List.cons_append] at i1 i2 i3 i4 ⊢
          simp only [arrivalsOf, acceptsOf] at i1 i2 i3 i4 ⊢
          exact ⟨i1, i2, i3, i4⟩

/-- Claim C1: for any interleaving of valid handshake arrivals and
`StartAccept` calls on one acceptor in which no accept precondition is
violated, requests are matched to accepting sockets strictly FIFO by
arrival order — the i-th accept call is bound to the i-th arrival's
remote id and endpoint and registered under the i-th fresh dispatcher
id; with N arrivals and M accepts, exactly N−M requests remain queued
(in arrival order) and exactly M−N accept calls remain suspended. -/
theorem acceptor_backlog_fifo (evs : List AccEvent) (d : Nat)
    (hok : (accRun (accInit d) evs).assert_ok = true) :
    (accRun (accInit d) evs).matched =
        matchList d ((acceptsOf evs).zip (arrivalsOf evs)) ∧
    (accRun (accInit d) evs).pending_requests =
        ((arrivalsOf evs).drop (acceptsOf evs).length).map mkReq ∧
    (accRun (accInit d) evs).waiting_accept_socket =
        ((acceptsOf evs).drop (arrivalsOf evs).length).head? ∧
    (accRun (accInit d) evs).pending_requests.length =
        (arrivalsOf evs).length - (acceptsOf evs).length ∧
    (accRun (accInit d) evs).waiting_accept_socket.toList.length =
        (acceptsOf evs).length - (arrivalsOf evs).length := by
  obtain ⟨i1, i2, i3, i4⟩ := accRun_char evs (accInit d) (Or.inl rfl) hok
  have e1 : (accRun (accInit d) evs).matched =
      matchList d ((acceptsOf evs).zip (arrivalsOf evs)) := by
    simpa [accInit] using i1
  have e2 : (accRun (accInit d) evs).pending_requests =
      ((arrivalsOf evs).drop (acceptsOf evs).length).map mkReq := by
    simpa [accInit] using i2
  have e3 : (accRun (accInit d) evs).waiting_accept_socket =
      ((acceptsOf evs).drop (arrivalsOf evs).length).head? := by
    simpa [accInit] using i3
  have e4 : (acceptsOf evs).length ≤ (arrivalsOf evs).length + 1 := by
    simpa [accInit] using i4
  refine ⟨e1, e2, e3, ?_, ?_⟩
  · rw [e2]
    simp
  · rw [e3]
    rcases le_or_lt (acceptsOf evs).length (arrivalsOf evs).length
      with hle | hlt
    · rw [List.drop_eq_nil_of_le hle]
      simp
      omega
    · have h1 : ((acceptsOf evs).drop (arrivalsOf evs).length).length = 1 :=
        by rw [List.length_drop]; omega
      obtain ⟨x, hx⟩ := List.length_eq_one.mp h1
      rw [hx]
      simp
      omega

theorem acceptor_backlog_fifo_witness :
    (accRun (accInit 3) sampleEvents).matched =
        matchList 3 ((acceptsOf sampleEvents).zip (arrivalsOf sampleEvents)) ∧
    (accRun (accInit 3) sampleEvents).pending_requests =
        ((arrivalsOf sampleEvents).drop
          (acceptsOf sampleEvents).length).map mkReq ∧
    (accRun (accInit 3) sampleEvents).waiting_accept_socket =
        ((acceptsOf sampleEvents).drop
          (arrivalsOf sampleEvents).length).head? ∧
    (accRun (accInit 3) sampleEvents).pending_requests.length =
        (arrivalsOf sampleEvents).length - (acceptsOf sampleEvents).length ∧
    (accRun (accInit 3) sampleEvents).waiting_accept_socket.toList.length =
        (acceptsOf sampleEvents).length - (arrivalsOf sampleEvents).length :=
  acceptor_backlog_fifo sampleEvents 3 (by decide)

end Udt
